import Mathlib

/-!
Verification of the Jellyfish topology builder (`src/jellyfish.py`).

The development shallowly embeds the builder's data and algorithms:

* `NodeID` and its constructors model `JellyfishNodeID.__init__` (name branch,
  dpid branch, direct branch) together with `name_str`.  Python's `int(...)`
  parsing is modelled by `pyInt?`.
* `addHostsRun` models `JellyfishTopo.addHosts`: the host loop with its
  `num % hosts_per_switch == 0` firing condition, and the filler loop
  `range(nodes / hosts_per_switch, switches)`.
* `phase1` / `phase2` model the two while loops of
  `JellyfishTopo.create_topology`.  The global Mersenne-Twister is abstracted
  as a stream of naturals `stream : ℕ → ℕ`; each `random.choice(seq)` consumes
  one stream value `v` and picks index `v % len(seq)`, preserving the property
  that a choice is an index draw from the then-current sequence.  Loops carry
  fuel; `none` models non-termination within the given fuel (and the
  `IndexError` of `random.choice` on an empty sequence in phase 2).

Switches are identified by their numeric index (`"s%d"` names are injective in
the index), hosts by `NodeName.host`; `added_links` is a list of ordered pairs
exactly as the Python list of tuples.
-/

namespace Jellyfish

/-! ### Node identities (`JellyfishNodeID`, src/jellyfish.py lines 15-71) -/

/-- Models a `JellyfishNodeID` object: the fields set by `__init__`.
Python integers are unbounded and signed, hence `Int`. -/
structure NodeID where
  switch_id : Int
  host_id : Int
  dpid : Int
deriving DecidableEq

/-- Direct construction branch (lines 37-40): `dpid = (switch_id << 8) + host_id`;
for any Python int, `x << 8` is `x * 256`. -/
def mkId (switch_id host_id : Int) : NodeID :=
  ⟨switch_id, host_id, switch_id * 256 + host_id⟩

/-- Decoding branch (lines 33-36): `switch_id = (dpid & 0xff00) >> 8`,
`host_id = dpid & 0xff`.  Stated on `ℕ` (the branch is used with non-negative
dpids; the round-trip claim restricts to byte-sized fields). -/
def fromDpid (dpid : ℕ) : NodeID :=
  ⟨((dpid &&& 0xff00) >>> 8 : ℕ), ((dpid &&& 0xff : ℕ) : Int), (dpid : Int)⟩

/-- Whitespace accepted (and stripped) by Python's `int(str)`. -/
def isSpaceCh (c : Char) : Bool :=
  c.toNat = 32 || c.toNat = 9 || c.toNat = 10 || c.toNat = 13

/-- Decimal digit test, by code point (models `str` digits accepted by `int`). -/
def isDigitCh (c : Char) : Bool :=
  48 ≤ c.toNat && c.toNat ≤ 57

/-- Strip leading and trailing whitespace, as `int(str)` does before parsing. -/
def pyStrip (l : List Char) : List Char :=
  ((l.dropWhile isSpaceCh).reverse.dropWhile isSpaceCh).reverse

/-- Accumulate a decimal value over a digit list; `none` at the first
non-digit character. -/
def pyIntAux (acc : ℕ) : List Char → Option ℕ
  | [] => some acc
  | c :: rest =>
    if isDigitCh c then pyIntAux (10 * acc + (c.toNat - 48)) rest else none

/-- A non-empty all-digit list parses to its value; otherwise `none`. -/
def pyDigits? (l : List Char) : Option ℕ :=
  if l.isEmpty then none else pyIntAux 0 l

/-- Models Python's `int(text)` on a character list: optional surrounding
whitespace, one optional sign, then at least one decimal digit.
`ValueError` is `none`. -/
def pyInt? (l : List Char) : Option Int :=
  match pyStrip l with
  | [] => none
  | c :: rest =>
    if c = '-' then (pyDigits? rest).map (fun n => -(n : Int))
    else if c = '+' then (pyDigits? rest).map (fun n => (n : Int))
    else (pyDigits? (c :: rest)).map (fun n => (n : Int))

/-- Name-parsing branch of `JellyfishNodeID.__init__` (lines 25-32):
`name[0] == 'h'` sets both ids to `int(name[1:])`; `name[0] == 's'` sets
`host_id = 255`; any other leading character leaves the ids unset so that the
following `self.switch_id << 8` raises (`none`), as does a failing `int(...)`
(`ValueError`) or an empty name (`IndexError`). -/
def fromName (s : String) : Option NodeID :=
  match s.data with
  | [] => none
  | c :: rest =>
    if c = 'h' then (pyInt? rest).map (fun n => mkId n n)
    else if c = 's' then (pyInt? rest).map (fun n => mkId n 255)
    else none

/-- The decimal digit characters, indexed by value. -/
def digitChar (d : ℕ) : Char :=
  (['0', '1', '2', '3', '4', '5', '6', '7', '8', '9']).getD d '*'

/-- Decimal rendering worker: the first argument is structural recursion fuel
(`n` itself always suffices, since `n / 10 < n`). -/
def natReprAux : ℕ → ℕ → List Char
  | 0, n => [digitChar n]
  | fuel + 1, n =>
    if n < 10 then [digitChar n]
    else natReprAux fuel (n / 10) ++ [digitChar (n % 10)]

/-- Decimal rendering of a natural, modelling `"%d"` formatting. -/
def natRepr (n : ℕ) : List Char := natReprAux n n

/-- Decimal rendering of a Python int (sign prepended when negative). -/
def intRepr (n : Int) : List Char :=
  if n < 0 then '-' :: natRepr (-n).toNat else natRepr n.toNat

/-- Models `__str__` / `name_str` (lines 42-57): `"s%d" % switch_id` when
`host_id == 255`, else `"h%d" % host_id`. -/
def nameStr (nid : NodeID) : String :=
  if nid.host_id = 255 then ⟨'s' :: intRepr nid.switch_id⟩
  else ⟨'h' :: intRepr nid.host_id⟩

/-! ### Host attachment (`JellyfishTopo.addHosts`, lines 247-271) -/

/-- A graph node as named by `name_str()`: `host n` is `"h<n>"`, `sw n` is
`"s<n>"` (both renderings are injective in `n`). -/
inductive NodeName where
  | host (n : ℕ)
  | sw (n : ℕ)
deriving DecidableEq

/-- The `name_str()` of `id_gen(switch_id, host_id)` for the builder's
(natural) indices: a `host_id` of 255 names a switch. -/
def mkNodeName (switch_id host_id : ℕ) : NodeName :=
  if host_id = 255 then .sw switch_id else .host host_id

/-- What `addHosts` adds to the topology: the node-addition sequence
(`addHost`/`addSwitch` call order), the switch indices in `addSwitch` call
order, and the host-to-switch links in `addLink` call order. -/
structure HostPlan where
  nodeSeq : List NodeName
  switchSeq : List ℕ
  hostLinks : List (NodeName × NodeName)
deriving DecidableEq

/-- The first loop of `addHosts` (lines 250-265) over the remaining host
indices: each host is appended to `host_list`; when `num % hosts_per_switch
== 0` a fresh switch `s<switch_num>` is added, every accumulated host is
linked to it, and the accumulator is reset. -/
def addHostsGo (hosts_per_switch : ℕ) :
    List ℕ → ℕ → List NodeName → HostPlan → HostPlan
  | [], _, _, acc => acc
  | num :: rest, switch_num, host_list, acc =>
    let h := mkNodeName (num + 1) (num + 1)
    let host_list' := host_list ++ [h]
    let acc' : HostPlan := { acc with nodeSeq := acc.nodeSeq ++ [h] }
    if num % hosts_per_switch = 0 then
      let s : NodeName := .sw switch_num
      addHostsGo hosts_per_switch rest (switch_num + 1) []
        { nodeSeq := acc'.nodeSeq ++ [s]
          switchSeq := acc'.switchSeq ++ [switch_num]
          hostLinks := acc'.hostLinks ++ host_list'.map (fun hh => (hh, s)) }
    else
      addHostsGo hosts_per_switch rest switch_num host_list' acc'

/-- Models `addHosts(switches, nodes, ports_per_switch, hosts_per_switch)`:
the host loop over `range(0, nodes)` followed by the filler loop
`for num in range(nodes / hosts_per_switch, switches)` adding host-less
switches (`/` is Python 2 floor division). -/
def addHostsRun (switches nodes _ports_per_switch hosts_per_switch : ℕ) :
    HostPlan :=
  let p1 := addHostsGo hosts_per_switch (List.range nodes) 1 [] ⟨[], [], []⟩
  let filler := (List.range' (nodes / hosts_per_switch)
      (switches - nodes / hosts_per_switch)).map (fun num => num + 1)
  { p1 with
    nodeSeq := p1.nodeSeq ++ filler.map .sw
    switchSeq := p1.switchSeq ++ filler }

/-! ### The two-phase random graph builder (`create_topology`, lines 307-349) -/

/-- Models `count_links_with_switch` (lines 273-278): how many tuples of
`link_list` contain `switch` as either component. -/
def count_links_with_switch (s : ℕ) (link_list : List (ℕ × ℕ)) : ℕ :=
  (link_list.filter (fun link => link.1 == s || link.2 == s)).length

/-- Models `not_fully_connected` (lines 237-245): true when some pair of
distinct listed switches is joined in neither orientation. -/
def not_fully_connected (switch_list : List ℕ) (link_list : List (ℕ × ℕ)) :
    Bool :=
  match switch_list with
  | [] => false
  | s :: rest =>
    rest.any (fun t => !(link_list.contains (s, t) || link_list.contains (t, s)))
      || not_fully_connected rest link_list

/-- Models `switch_is_fully_connected` (lines 299-305).  Note the source
requires BOTH tuple orientations `(switch, s)` and `(s, switch)` to be present
(`... not in links or ... not in links` returns False). -/
def switch_is_fully_connected (s : ℕ) (links : List (ℕ × ℕ))
    (switches : List ℕ) : Bool :=
  switches.all (fun t => t == s || (links.contains (s, t) && links.contains (t, s)))

/-- The spec's reading of "adjacent to every other member": joined in either
orientation.  Kept separate from `switch_is_fully_connected` to compare the
source against the specified condition. -/
def adjacentToAll (s : ℕ) (links : List (ℕ × ℕ)) (switches : List ℕ) : Bool :=
  switches.all (fun t => t == s || links.contains (s, t) || links.contains (t, s))

/-- One execution of the Phase 1 while-body (lines 313-326): two `random.choice`
draws from `switch_list` (each consumes one stream value), the self-pair and
duplicate-pair `continue`s, otherwise append the edge and drop an endpoint
whose link count equals `ports_per_switch` or which
`switch_is_fully_connected` reports as done (the second endpoint's check runs
against the possibly already shrunk list).  Returns the new
`(switch_list, added_links, cursor)`. -/
def phase1Body (ports_per_switch : ℕ) (stream : ℕ → ℕ) (c : ℕ)
    (switch_list : List ℕ) (added_links : List (ℕ × ℕ)) :
    List ℕ × List (ℕ × ℕ) × ℕ :=
  let switch := switch_list.getD (stream c % switch_list.length) 0
  let switch2 := switch_list.getD (stream (c + 1) % switch_list.length) 0
  if switch == switch2 then (switch_list, added_links, c + 2)
  else if added_links.contains (switch, switch2)
      || added_links.contains (switch2, switch) then
    (switch_list, added_links, c + 2)
  else
    let added' := added_links ++ [(switch, switch2)]
    let sl1 := if count_links_with_switch switch added' == ports_per_switch
        || switch_is_fully_connected switch added' switch_list then
      switch_list.erase switch else switch_list
    let sl2 := if count_links_with_switch switch2 added' == ports_per_switch
        || switch_is_fully_connected switch2 added' sl1 then
      sl1.erase switch2 else sl1
    (sl2, added', c + 2)

/-- The Phase 1 while loop (line 312): run the body while more than one
candidate remains and some candidate pair is unjoined.  `none` when the fuel
runs out before the guard fails. -/
def phase1 (ports_per_switch : ℕ) (stream : ℕ → ℕ) :
    ℕ → ℕ → List ℕ → List (ℕ × ℕ) → Option (List ℕ × List (ℕ × ℕ) × ℕ)
  | 0, c, switch_list, added_links =>
    if 1 < switch_list.length ∧ not_fully_connected switch_list added_links then
      none
    else some (switch_list, added_links, c)
  | fuel + 1, c, switch_list, added_links =>
    if 1 < switch_list.length ∧ not_fully_connected switch_list added_links then
      let t := phase1Body ports_per_switch stream c switch_list added_links
      phase1 ports_per_switch stream fuel t.2.2 t.1 t.2.1
    else some (switch_list, added_links, c)

/-- One Phase 2 `for switch in switch_list` pass (lines 331-344): a switch that
`switch_is_fully_connected` reports done is skipped; one whose link count is
below `ports_per_switch - 1` clears `completed`, draws one random existing
link, skips it if the switch is one of its endpoints, and otherwise rewires:
remove the link, append `(switch, link[0])` and `(switch, link[1])` (no
duplicate check).  `none` models `random.choice` on an empty link list. -/
def phase2Pass (ports_per_switch : ℕ) (stream : ℕ → ℕ) (switch_list : List ℕ) :
    List ℕ → List (ℕ × ℕ) → Bool → ℕ → Option (List (ℕ × ℕ) × Bool × ℕ)
  | [], added_links, completed, c => some (added_links, completed, c)
  | s :: rest, added_links, completed, c =>
    if switch_is_fully_connected s added_links switch_list then
      phase2Pass ports_per_switch stream switch_list rest added_links completed c
    else if count_links_with_switch s added_links < ports_per_switch - 1 then
      match added_links[stream c % added_links.length]? with
      | none => none
      | some link =>
        if s == link.1 || s == link.2 then
          phase2Pass ports_per_switch stream switch_list rest added_links false
            (c + 1)
        else
          phase2Pass ports_per_switch stream switch_list rest
            ((added_links.erase link) ++ [(s, link.1), (s, link.2)]) false (c + 1)
    else
      phase2Pass ports_per_switch stream switch_list rest added_links completed c

/-- The Phase 2 `while True` repair loop (lines 330-346): run passes until one
completes with no deficient switch.  The pass list is the candidate list as
Phase 1 left it.  `none` when the fuel runs out (the loop has no cap in the
source). -/
def phase2 (ports_per_switch : ℕ) (stream : ℕ → ℕ) :
    ℕ → List ℕ → List (ℕ × ℕ) → ℕ → Option (List (ℕ × ℕ) × ℕ)
  | 0, _, _, _ => none
  | fuel + 1, switch_list, added_links, c =>
    match phase2Pass ports_per_switch stream switch_list switch_list added_links
        true c with
    | none => none
    | some (links', completed, c') =>
      if completed then some (links', c')
      else phase2 ports_per_switch stream fuel switch_list links' c'

/-- The artifact `create_topology` leaves in the topology: everything
`addHosts` added plus the final inter-switch `added_links` (materialized by
the `addLink` loop at lines 348-349). -/
structure BuildResult where
  plan : HostPlan
  added_links : List (ℕ × ℕ)
deriving DecidableEq

/-- Models `create_topology(switches, nodes, ports_per_switch,
hosts_per_switch)` (lines 307-349): `addHosts`, then Phase 1 from the
(sorted, duplicate-free) switch list with an empty link list, then Phase 2 on
the candidate list Phase 1 left.  `__init__` performs no parameter validation
before calling this. -/
def create_topology (switches nodes ports_per_switch hosts_per_switch : ℕ)
    (stream : ℕ → ℕ) (fuel : ℕ) : Option BuildResult :=
  let plan := addHostsRun switches nodes ports_per_switch hosts_per_switch
  (phase1 ports_per_switch stream fuel 0 plan.switchSeq.dedup []).bind fun t =>
    (phase2 ports_per_switch stream fuel t.1 t.2.1 t.2.2).map fun q =>
      ⟨plan, q.1⟩

/-! ### Derived quantities used by the claims -/

/-- Hosts attached to switch `s` by the host-attachment plan. -/
def hostsAttached (plan : HostPlan) (s : ℕ) : ℕ :=
  (plan.hostLinks.filter (fun l => l.2 == NodeName.sw s)).length

/-- The spec's derived PortBudget of a switch:
`ports_per_switch − hosts_attached − inter_switch_degree` (over ℤ, as the spec
asks whether it goes negative). -/
def portBudget (ports_per_switch hosts_attached inter_switch_degree : ℕ) : ℤ :=
  (ports_per_switch : ℤ) - hosts_attached - inter_switch_degree

/-- How many list entries carry the unordered pair `{a, b}`. -/
def unorderedCount (links : List (ℕ × ℕ)) (a b : ℕ) : ℕ :=
  (links.filter (fun l => (l.1 == a && l.2 == b) || (l.1 == b && l.2 == a))).length

/-- A deterministic stream backed by a list (0 past its end). -/
def listStream (l : List ℕ) (n : ℕ) : ℕ := l.getD n 0

/-- The identity stream. -/
def idStream (n : ℕ) : ℕ := n

/-- The switch ids emitted by the cluster loop of `addHosts`, starting at
`switch_num`: one per `num` with `num % hosts_per_switch == 0`, in order.
Characterization device for `addHostsGo`. -/
def clusterIds (hosts_per_switch : ℕ) : ℕ → List ℕ → List ℕ
  | _, [] => []
  | switch_num, num :: rest =>
    if num % hosts_per_switch = 0 then
      switch_num :: clusterIds hosts_per_switch (switch_num + 1) rest
    else clusterIds hosts_per_switch switch_num rest

/-! ### Generic facts about the loops -/

/-- Phase 1 exits at once when its guard fails, whatever the fuel. -/
theorem phase1_done (p : ℕ) (s : ℕ → ℕ) (fuel c : ℕ) (sl : List ℕ)
    (links : List (ℕ × ℕ))
    (h : ¬(1 < sl.length ∧ not_fully_connected sl links = true)) :
    phase1 p s fuel c sl links = some (sl, links, c) := by
  cases fuel <;> simp only [phase1, if_neg h]

/-- Phase 2 over an empty candidate list returns the links unchanged. -/
theorem phase2_nil (p : ℕ) (s : ℕ → ℕ) (fuel c : ℕ) (links : List (ℕ × ℕ))
    (r : List (ℕ × ℕ) × ℕ) (h : phase2 p s fuel [] links c = some r) :
    r.1 = links := by
  cases fuel with
  | zero => simp [phase2] at h
  | succ n =>
    simp only [phase2, phase2Pass] at h
    simp only [if_pos, Option.some.injEq] at h
    rw [← h]

/-! ### C1: the builder ignores attached hosts when capping a switch's degree -/

/-- Phase 1 of the C1 instance (`ports_per_switch = 1`, candidates `[1, 2]`,
one host already attached to each switch): whatever the random stream, a
terminating run ends with an empty candidate list and the single inter-switch
edge in one of its two orientations. -/
theorem phase1_c1 (s : ℕ → ℕ) :
    ∀ fuel c r, phase1 1 s fuel c [1, 2] [] = some r →
      r.1 = [] ∧ (r.2.1 = [(1, 2)] ∨ r.2.1 = [(2, 1)]) := by
  intro fuel
  induction fuel with
  | zero =>
    intro c r h
    rw [phase1, if_pos (by decide)] at h
    exact Option.noConfusion h
  | succ n ih =>
    intro c r h
    rw [phase1, if_pos (by decide)] at h
    rcases Nat.mod_two_eq_zero_or_one (s c) with h1 | h1 <;>
      rcases Nat.mod_two_eq_zero_or_one (s (c + 1)) with h2 | h2 <;>
      simp [phase1Body, h1, h2, count_links_with_switch,
        switch_is_fully_connected] at h
    all_goals
      first
      | exact ih _ _ h
      | (rw [phase1_done 1 s n (c + 2) [] [(1, 2)] (by decide)] at h
         injection h with h
         subst h
         simp)
      | (rw [phase1_done 1 s n (c + 2) [] [(2, 1)] (by decide)] at h
         injection h with h
         subst h
         simp)


/-- C1: refuted on the code (code bug).  With `switches = 2`, `nodes = 2`,
`ports_per_switch = 1`, `hosts_per_switch = 1`, each switch gets one host, so
its free-port budget is `1 − 1 = 0`; yet for EVERY random stream a terminating
construction still gives switch 1 an inter-switch edge, because Phase 1 only
removes a candidate when its inter-switch link count equals
`ports_per_switch`, never subtracting attached hosts: the derived PortBudget
`ports_per_switch − hosts_attached − inter_switch_degree` ends negative. -/
theorem c1_budget_violation (stream : ℕ → ℕ) (fuel : ℕ) (r : BuildResult)
    (h : create_topology 2 2 1 1 stream fuel = some r) :
    portBudget 1 (hostsAttached r.plan 1)
      (count_links_with_switch 1 r.added_links) < 0 := by
  simp only [create_topology] at h
  rw [show (addHostsRun 2 2 1 1).switchSeq.dedup = [1, 2] from by decide] at h
  cases hp : phase1 1 stream fuel 0 [1, 2] [] with
  | none => rw [hp] at h; exact Option.noConfusion h
  | some t =>
    rw [hp] at h
    obtain ⟨hsl, hlinks⟩ := phase1_c1 stream fuel 0 t hp
    obtain ⟨sl, links, c⟩ := t
    simp only at hsl hlinks
    subst hsl
    simp only [Option.some_bind] at h
    cases hq : phase2 1 stream fuel [] links c with
    | none => rw [hq] at h; exact Option.noConfusion h
    | some q =>
      rw [hq] at h
      have hql := phase2_nil 1 stream fuel c links q hq
      simp only [Option.map_some'] at h
      injection h with h
      subst h
      rcases hlinks with hl | hl <;> rw [hql, hl] <;> decide

/-- Witness for `c1_budget_violation`: the identity stream terminates within
fuel 10 on the C1 instance and exhibits the negative PortBudget. -/
theorem c1_budget_violation_witness :
    portBudget 1
      (hostsAttached ⟨[.host 1, .sw 1, .host 2, .sw 2], [1, 2],
        [(.host 1, .sw 1), (.host 2, .sw 2)]⟩ 1)
      (count_links_with_switch 1 [(1, 2)]) < 0 :=
  c1_budget_violation idStream 10
    ⟨⟨[.host 1, .sw 1, .host 2, .sw 2], [1, 2],
      [(.host 1, .sw 1), (.host 2, .sw 2)]⟩, [(1, 2)]⟩ (by decide)

/-! ### C3: a feasible instance on which construction never terminates -/

/-- Phase 1 of the C3 instance (`ports_per_switch = 4`, candidates `[1, 2]`):
a terminating run keeps both candidates (the broken two-orientation adjacency
test never fires and the count never reaches 4) and holds the one edge. -/
theorem phase1_c3 (s : ℕ → ℕ) :
    ∀ fuel c r, phase1 4 s fuel c [1, 2] [] = some r →
      r.1 = [1, 2] ∧ (r.2.1 = [(1, 2)] ∨ r.2.1 = [(2, 1)]) := by
  intro fuel
  induction fuel with
  | zero =>
    intro c r h
    rw [phase1, if_pos (by decide)] at h
    exact Option.noConfusion h
  | succ n ih =>
    intro c r h
    rw [phase1, if_pos (by decide)] at h
    rcases Nat.mod_two_eq_zero_or_one (s c) with h1 | h1 <;>
      rcases Nat.mod_two_eq_zero_or_one (s (c + 1)) with h2 | h2 <;>
      simp [phase1Body, h1, h2, count_links_with_switch,
        switch_is_fully_connected] at h
    all_goals
      first
      | exact ih _ _ h
      | (rw [phase1_done 4 s n (c + 2) [1, 2] [(1, 2)] (by decide)] at h
         injection h with h
         subst h
         simp)
      | (rw [phase1_done 4 s n (c + 2) [1, 2] [(2, 1)] (by decide)] at h
         injection h with h
         subst h
         simp)

/-- Phase 2 of the C3 instance diverges: both candidates stay deficient
(count 1 is below `ports_per_switch − 1 = 3`) and the only existing link
touches whichever switch draws it, so every pass clears `completed` and
changes nothing. -/
theorem phase2_c3 (s : ℕ → ℕ) :
    ∀ fuel c L, (L = [(1, 2)] ∨ L = [(2, 1)]) →
      phase2 4 s fuel [1, 2] L c = none := by
  intro fuel
  induction fuel with
  | zero => intro c L _; rfl
  | succ n ih =>
    intro c L hL
    have hpass : phase2Pass 4 s [1, 2] [1, 2] L true c =
        some (L, false, c + 1 + 1) := by
      rcases hL with h | h <;> subst h <;>
        simp [phase2Pass, switch_is_fully_connected, count_links_with_switch,
          Nat.mod_one]
    rw [phase2, hpass]
    simp only [Bool.false_eq_true, if_false]
    exact ih (c + 1 + 1) L hL

/-- C3: refuted on the code (code bug).  With `switches = 2`, `nodes = 2`,
`ports_per_switch = 4`, `hosts_per_switch = 1` — parameters every reasonable
feasibility reading accepts — construction NEVER terminates, for every random
stream and every amount of fuel: Phase 1 ends with the single edge and both
switches still candidates, and each Phase 2 pass skips its only link (the
link touches the deficient switch) while clearing `completed`, so the
`while True` loop never exits. -/
theorem c3_nontermination (stream : ℕ → ℕ) (fuel : ℕ) :
    create_topology 2 2 4 1 stream fuel = none := by
  simp only [create_topology]
  rw [show (addHostsRun 2 2 4 1).switchSeq.dedup = [1, 2] from by decide]
  cases hp : phase1 4 stream fuel 0 [1, 2] [] with
  | none => rfl
  | some t =>
    obtain ⟨hsl, hlinks⟩ := phase1_c3 stream fuel 0 t hp
    obtain ⟨sl, links, c⟩ := t
    simp only at hsl hlinks
    subst hsl
    simp only [Option.some_bind]
    rw [phase2_c3 stream fuel c links hlinks]
    rfl

/-! ### C2, C4, C5, C6: concrete runs exhibiting the remaining code bugs -/

/-- C2: refuted on the code (code bug).  On `switches = 3`, `nodes = 3`,
`ports_per_switch = 4`, `hosts_per_switch = 1`, with the recorded draw
sequence (Phase 1 builds the triangle, then each Phase 2 rewiring appends
`(s, a)`/`(s, b)` without any duplicate check), the final edge list holds
every unordered pair twice: `(1, 2)` and `(2, 1)`, `(1, 3)` and `(3, 1)`,
`(2, 3)` and `(3, 2)`. -/
theorem c2_phase2_duplicate_edge :
    (create_topology 3 3 4 1 (listStream [0, 1, 0, 2, 1, 2, 2, 1, 0]) 12).map
        BuildResult.added_links =
      some [(1, 2), (1, 3), (2, 1), (2, 3), (3, 1), (3, 2)] ∧
    2 ≤ unorderedCount [(1, 2), (1, 3), (2, 1), (2, 3), (3, 1), (3, 2)] 1 2 ∧
    2 ≤ unorderedCount [(1, 2), (1, 3), (2, 1), (2, 3), (3, 1), (3, 2)] 1 3 :=
  ⟨by decide, by decide, by decide⟩

/-- C4: refuted on the code (code bug).  With `hosts_per_switch = 2` and
`nodes = 2`, the cluster check `num % hosts_per_switch == 0` fires at the
START of a cluster, so switch 1 is linked to host 1 alone and host 2 —
accumulated after the last firing — is never linked to any switch: the final
`hostLinks` contain no edge at `h2` although `h2` was added. -/
theorem c4_orphan_host :
    (addHostsRun 2 2 4 2).nodeSeq.contains (NodeName.host 2) = true ∧
    (addHostsRun 2 2 4 2).hostLinks = [(NodeName.host 1, NodeName.sw 1)] ∧
    ((addHostsRun 2 2 4 2).hostLinks.filter
        (fun l => l.1 == NodeName.host 2 || l.2 == NodeName.host 2)).length = 0 :=
  ⟨by decide, by decide, by decide⟩

/-- C5: refuted on the code (code bug).  In the Phase 1 state with candidates
`[1, 2, 3]` and link `(1, 2)`, drawing the pair `(1, 3)` adds the edge and
leaves switch 1 adjacent to every other candidate with budget remaining
(count 2 < 4); the claim says it is then removed, but
`switch_is_fully_connected` demands BOTH tuple orientations in the list
(`or` where the intent is `and`), returns `false`, and the body keeps the
candidate list `[1, 2, 3]` unchanged. -/
theorem c5_adjacency_removal_missed :
    phase1Body 4 (listStream [0, 2]) 0 [1, 2, 3] [(1, 2)] =
      ([1, 2, 3], [(1, 2), (1, 3)], 2) ∧
    adjacentToAll 1 [(1, 2), (1, 3)] [1, 2, 3] = true ∧
    count_links_with_switch 1 [(1, 2), (1, 3)] < 4 ∧
    switch_is_fully_connected 1 [(1, 2), (1, 3)] [1, 2, 3] = false :=
  ⟨by decide, by decide, by decide, by decide⟩

/-- C6: refuted on the code (code bug).  With `ports_per_switch = 1` and
`hosts_per_switch = 1` (so `ports_per_switch − hosts_per_switch ≤ 0`, which
the claim says must be rejected up front), nothing is rejected: neither
`__init__` nor `create_topology` contains any feasibility check or an
`InfeasibleBudgetError`, and the construction runs to completion, wiring an
inter-switch edge both endpoints have no free port for. -/
theorem c6_no_feasibility_rejection :
    create_topology 2 2 1 1 idStream 10 =
      some ⟨⟨[.host 1, .sw 1, .host 2, .sw 2], [1, 2],
        [(.host 1, .sw 1), (.host 2, .sw 2)]⟩, [(1, 2)]⟩ := by decide

/-! ### C8: name parsing accepts negative indices -/

/-- C8 counterexample: `"h-3"` has a remainder that is not a non-negative
integer, yet `fromName` succeeds (Python's `int` accepts a sign) and stores
the negative index. -/
theorem c8_negative_index_accepted :
    fromName "h-3" = some (mkId (-3) (-3)) ∧ (mkId (-3) (-3)).host_id < 0 :=
  ⟨by decide, by decide⟩

/-! ### C7: determinism of the construction -/

/-- More fuel preserves a Phase 1 result: the fuel is a termination device,
not an input of the algorithm. -/
theorem phase1_mono (p : ℕ) (s : ℕ → ℕ) :
    ∀ f1 f2 c sl links r, phase1 p s f1 c sl links = some r → f1 ≤ f2 →
      phase1 p s f2 c sl links = some r := by
  intro f1
  induction f1 with
  | zero =>
    intro f2 c sl links r h _
    by_cases hg : 1 < sl.length ∧ not_fully_connected sl links = true
    · rw [phase1, if_pos hg] at h
      exact Option.noConfusion h
    · rw [phase1_done p s 0 c sl links hg] at h
      rw [phase1_done p s f2 c sl links hg]
      exact h
  | succ n ih =>
    intro f2 c sl links r h hle
    by_cases hg : 1 < sl.length ∧ not_fully_connected sl links = true
    · cases f2 with
      | zero => omega
      | succ m =>
        rw [phase1, if_pos hg] at h ⊢
        exact ih m _ _ _ _ h (by omega)
    · rw [phase1_done p s (n + 1) c sl links hg] at h
      rw [phase1_done p s f2 c sl links hg]
      exact h

/-- More fuel preserves a Phase 2 result. -/
theorem phase2_mono (p : ℕ) (s : ℕ → ℕ) :
    ∀ f1 f2 sl links c r, phase2 p s f1 sl links c = some r → f1 ≤ f2 →
      phase2 p s f2 sl links c = some r := by
  intro f1
  induction f1 with
  | zero =>
    intro f2 sl links c r h _
    exact Option.noConfusion h
  | succ n ih =>
    intro f2 sl links c r h hle
    cases f2 with
    | zero => omega
    | succ m =>
      rw [phase2] at h ⊢
      cases hp : phase2Pass p s sl sl links true c with
      | none => rw [hp] at h; exact Option.noConfusion h
      | some t =>
        rw [hp] at h
        obtain ⟨links', completed, c'⟩ := t
        cases completed with
        | true => exact h
        | false =>
          simp only [Bool.false_eq_true, if_false] at h ⊢
          exact ih m _ _ _ _ h (by omega)

/-- More fuel preserves the whole construction's result. -/
theorem create_topology_mono
    (switches nodes ports_per_switch hosts_per_switch : ℕ) (stream : ℕ → ℕ)
    (f1 f2 : ℕ) (r : BuildResult)
    (h : create_topology switches nodes ports_per_switch hosts_per_switch
      stream f1 = some r) (hle : f1 ≤ f2) :
    create_topology switches nodes ports_per_switch hosts_per_switch stream f2 =
      some r := by
  simp only [create_topology] at h ⊢
  cases hp : phase1 ports_per_switch stream f1 0
      (addHostsRun switches nodes ports_per_switch
        hosts_per_switch).switchSeq.dedup [] with
  | none => rw [hp] at h; exact Option.noConfusion h
  | some t =>
    rw [hp] at h
    rw [phase1_mono ports_per_switch stream f1 f2 _ _ _ t hp hle]
    simp only [Option.some_bind] at h ⊢
    cases hq : phase2 ports_per_switch stream f1 t.1 t.2.1 t.2.2 with
    | none => rw [hq] at h; exact Option.noConfusion h
    | some q =>
      rw [hq] at h
      rw [phase2_mono ports_per_switch stream f1 f2 _ _ _ q hq hle]
      exact h

/-- C7: confirmed.  The construction is a pure function of its parameters and
the seeded draw stream: two terminating runs with the same switch count, host
count, `ports_per_switch`, `hosts_per_switch` and the same stream (the
abstraction of one seed) produce identical node and edge record lists,
whatever fuel each run was given. -/
theorem c7_deterministic
    (switches nodes ports_per_switch hosts_per_switch : ℕ) (stream : ℕ → ℕ)
    (f1 f2 : ℕ) (r1 r2 : BuildResult)
    (h1 : create_topology switches nodes ports_per_switch hosts_per_switch
      stream f1 = some r1)
    (h2 : create_topology switches nodes ports_per_switch hosts_per_switch
      stream f2 = some r2) :
    r1 = r2 := by
  have e1 := create_topology_mono switches nodes ports_per_switch
    hosts_per_switch stream f1 (max f1 f2) r1 h1 (le_max_left _ _)
  have e2 := create_topology_mono switches nodes ports_per_switch
    hosts_per_switch stream f2 (max f1 f2) r2 h2 (le_max_right _ _)
  rw [e1] at e2
  exact Option.some.inj e2

/-- Witness for `c7_deterministic`: two runs of the one-switch instance with
different fuels give the same records. -/
theorem c7_deterministic_witness :
    (⟨⟨[.host 1, .sw 1], [1], [(.host 1, .sw 1)]⟩, []⟩ : BuildResult) =
      ⟨⟨[.host 1, .sw 1], [1], [(.host 1, .sw 1)]⟩, []⟩ :=
  c7_deterministic 1 1 4 1 idStream 1 2 _ _ (by decide) (by decide)

/-! ### C8, C9, C10: identifier parsing, rendering and allocation -/

/-- Digit characters are digits with the expected code point. -/
theorem digitChar_spec (d : ℕ) (h : d < 10) :
    isDigitCh (digitChar d) = true ∧ (digitChar d).toNat = 48 + d := by
  interval_cases d <;> exact ⟨by decide, by decide⟩

theorem natReprAux_ne_nil (fuel n : ℕ) : natReprAux fuel n ≠ [] := by
  cases fuel with
  | zero => simp [natReprAux]
  | succ m =>
    rw [natReprAux]
    split <;> simp

theorem natReprAux_digits :
    ∀ fuel n, n ≤ fuel → ∀ c ∈ natReprAux fuel n, isDigitCh c = true := by
  intro fuel
  induction fuel with
  | zero =>
    intro n hn c hc
    interval_cases n
    simp [natReprAux] at hc
    subst hc
    exact (digitChar_spec 0 (by omega)).1
  | succ m ih =>
    intro n hn c hc
    rw [natReprAux] at hc
    by_cases h10 : n < 10
    · rw [if_pos h10] at hc
      simp at hc
      subst hc
      exact (digitChar_spec n h10).1
    · rw [if_neg h10] at hc
      simp at hc
      rcases hc with hc | hc
      · exact ih (n / 10) (by omega) c hc
      · subst hc
        exact (digitChar_spec (n % 10) (by omega)).1

theorem pyIntAux_append (l1 l2 : List Char) :
    ∀ acc, pyIntAux acc (l1 ++ l2) =
      (pyIntAux acc l1).bind fun a => pyIntAux a l2 := by
  induction l1 with
  | nil => intro acc; rfl
  | cons c rest ih =>
    intro acc
    simp only [List.cons_append, pyIntAux]
    by_cases hd : isDigitCh c = true
    · rw [if_pos hd, if_pos hd]
      exact ih _
    · rw [if_neg hd, if_neg hd]
      rfl

theorem pyIntAux_natReprAux :
    ∀ fuel n, n ≤ fuel → ∀ acc, pyIntAux acc (natReprAux fuel n) =
      some (acc * 10 ^ (natReprAux fuel n).length + n) := by
  intro fuel
  induction fuel with
  | zero =>
    intro n hn acc
    interval_cases n
    simp [natReprAux, pyIntAux, digitChar, isDigitCh]
    ring
  | succ m ih =>
    intro n hn acc
    rw [natReprAux]
    by_cases h10 : n < 10
    · rw [if_pos h10]
      have hd := digitChar_spec n h10
      simp only [pyIntAux, hd.1, if_true, hd.2, List.length_cons,
        List.length_nil]
      congr 1
      omega
    · rw [if_neg h10]
      rw [pyIntAux_append]
      rw [ih (n / 10) (by omega) acc]
      simp only [Option.some_bind]
      have hd := digitChar_spec (n % 10) (by omega)
      simp only [pyIntAux, hd.1, if_true, hd.2]
      have hL : (natReprAux m (n / 10) ++ [digitChar (n % 10)]).length =
          (natReprAux m (n / 10)).length + 1 := by simp
      rw [hL]
      congr 1
      rw [pow_succ, ← mul_assoc]
      generalize acc * 10 ^ (natReprAux m (n / 10)).length = M
      omega

theorem isDigitCh_not_space (c : Char) (h : isDigitCh c = true) :
    isSpaceCh c = false := by
  simp only [isDigitCh, Bool.and_eq_true, decide_eq_true_eq] at h
  simp only [isSpaceCh]
  simp only [Bool.or_eq_false_iff, decide_eq_false_iff_not]
  omega

theorem dropWhile_all_false {p : Char → Bool} (l : List Char)
    (h : ∀ c ∈ l, p c = false) : l.dropWhile p = l := by
  cases l with
  | nil => rfl
  | cons c rest => simp [List.dropWhile, h c (by simp)]

theorem pyStrip_digits (l : List Char) (h : ∀ c ∈ l, isDigitCh c = true) :
    pyStrip l = l := by
  unfold pyStrip
  rw [dropWhile_all_false l (fun c hc => isDigitCh_not_space c (h c hc))]
  rw [dropWhile_all_false l.reverse
    (fun c hc => isDigitCh_not_space c (h c (List.mem_reverse.mp hc)))]
  exact List.reverse_reverse l

theorem pyIntAux_natRepr (n acc : ℕ) :
    pyIntAux acc (natRepr n) = some (acc * 10 ^ (natRepr n).length + n) :=
  pyIntAux_natReprAux n n (le_refl n) acc

theorem pyInt?_natRepr (n : ℕ) : pyInt? (natRepr n) = some (n : Int) := by
  have hdig : ∀ c ∈ natRepr n, isDigitCh c = true :=
    natReprAux_digits n n (le_refl n)
  have hstrip : pyStrip (natRepr n) = natRepr n := pyStrip_digits _ hdig
  obtain ⟨c, rest, hcr⟩ : ∃ c rest, natRepr n = c :: rest := by
    cases hnr : natRepr n with
    | nil => exact absurd hnr (natReprAux_ne_nil n n)
    | cons c rest => exact ⟨c, rest, rfl⟩
  have hcd : isDigitCh c = true := hdig c (by rw [hcr]; exact List.mem_cons_self c rest)
  have hc1 : ¬ c = '-' := fun he => by rw [he] at hcd; exact absurd hcd (by decide)
  have hc2 : ¬ c = '+' := fun he => by rw [he] at hcd; exact absurd hcd (by decide)
  unfold pyInt?
  rw [hstrip, hcr]
  simp only [if_neg hc1, if_neg hc2]
  rw [← hcr]
  unfold pyDigits?
  rw [if_neg (by rw [hcr]; simp)]
  rw [pyIntAux_natRepr n 0]
  simp

theorem fromName_h (n : ℕ) : fromName ⟨'h' :: natRepr n⟩ = some (mkId n n) := by
  show (pyInt? (natRepr n)).map (fun k => mkId k k) = some (mkId n n)
  rw [pyInt?_natRepr]
  rfl

theorem fromName_s (n : ℕ) : fromName ⟨'s' :: natRepr n⟩ = some (mkId n 255) := by
  show (pyInt? (natRepr n)).map (fun k => mkId k 255) = some (mkId n 255)
  rw [pyInt?_natRepr]
  rfl

theorem intRepr_natCast (n : ℕ) : intRepr (n : Int) = natRepr n := by
  unfold intRepr
  rw [if_neg (by omega), Int.toNat_natCast]

/-- C8 (amended): `fromName` fails exactly when the name is empty, the leading
class letter is neither `'h'` nor `'s'`, or the remainder fails Python
`int()` parsing; an optionally SIGNED integer remainder is accepted (negative
indices parse, contrary to the original claim), and every valid name `h<n>` /
`s<n>` with a nonnegative integer `n` succeeds and sets the corresponding
index to `n`. -/
theorem c8_parse_characterization :
    (∀ s : String, (fromName s).isSome = true ↔
      ∃ c rest, s.data = c :: rest ∧ (c = 'h' ∨ c = 's') ∧
        (pyInt? rest).isSome = true) ∧
    (∀ n : ℕ, fromName ⟨'h' :: natRepr n⟩ = some (mkId n n) ∧
      fromName ⟨'s' :: natRepr n⟩ = some (mkId n 255)) := by
  constructor
  · intro s
    cases hs : s.data with
    | nil =>
      constructor
      · intro h
        unfold fromName at h
        rw [hs] at h
        exact Bool.noConfusion h
      · rintro ⟨c, rest, heq, -, -⟩
        exact List.noConfusion heq
    | cons c rest =>
      have hfn : fromName s =
          (if c = 'h' then (pyInt? rest).map (fun n => mkId n n)
            else if c = 's' then (pyInt? rest).map (fun n => mkId n 255)
            else none) := by
        unfold fromName
        rw [hs]
      rw [hfn]
      by_cases h1 : c = 'h'
      · rw [if_pos h1]
        rw [Option.isSome_map']
        constructor
        · intro hp
          exact ⟨c, rest, rfl, Or.inl h1, hp⟩
        · rintro ⟨c', rest', heq, -, hp⟩
          injection heq with e1 e2
          rw [e2]
          exact hp
      · rw [if_neg h1]
        by_cases h2 : c = 's'
        · rw [if_pos h2]
          rw [Option.isSome_map']
          constructor
          · intro hp
            exact ⟨c, rest, rfl, Or.inr h2, hp⟩
          · rintro ⟨c', rest', heq, -, hp⟩
            injection heq with e1 e2
            rw [e2]
            exact hp
        · rw [if_neg h2]
          constructor
          · intro h
            exact Bool.noConfusion h
          · rintro ⟨c', rest', heq, hcs, -⟩
            exfalso
            injection heq with e1 e2
            rcases hcs with h | h <;> rw [← e1] at h
            · exact h1 h
            · exact h2 h
  · intro n
    exact ⟨fromName_h n, fromName_s n⟩

theorem land255 (d : ℕ) : d &&& 255 = d % 256 := by
  have h := Nat.and_pow_two_sub_one_eq_mod d 8
  norm_num at h
  exact h

theorem landff00_shift (d : ℕ) : (d &&& 0xff00) >>> 8 = d / 256 % 256 := by
  apply Nat.eq_of_testBit_eq
  intro i
  rw [Nat.testBit_shiftRight, Nat.testBit_and]
  rw [show (0xff00 : ℕ) = 255 <<< 8 from by decide]
  rw [Nat.testBit_shiftLeft]
  rw [show (8 : ℕ) + i - 8 = i from by omega]
  rw [show (255 : ℕ) = 2 ^ 8 - 1 from by decide, Nat.testBit_two_pow_sub_one]
  rw [show (256 : ℕ) = 2 ^ 8 from by decide, Nat.testBit_mod_two_pow]
  rw [← Nat.shiftRight_eq_div_pow, Nat.testBit_shiftRight]
  rw [show decide ((8 : ℕ) + i ≥ 8) = true from by simp]
  cases d.testBit (8 + i) <;> simp

theorem mkId_switch_id (a b : Int) : (mkId a b).switch_id = a := rfl

theorem mkId_host_id (a b : Int) : (mkId a b).host_id = b := rfl

/-- C9: confirmed.  Round-trips of the identities the builder constructs:
parsing back the rendered name of any host identity `(n, n)` or switch
identity `(n, 255)` — including the `n = 255` host, whose name renders as a
switch name — returns the same identity, and decoding the composite dpid of
any identity with byte-sized fields returns the same identity. -/
theorem c9_identifier_roundtrip :
    (∀ n : ℕ, fromName (nameStr (mkId n n)) = some (mkId n n) ∧
      fromName (nameStr (mkId n 255)) = some (mkId n 255)) ∧
    (∀ sw ho : ℕ, sw < 256 → ho < 256 →
      fromDpid ((mkId sw ho).dpid.toNat) = mkId sw ho) := by
  constructor
  · intro n
    constructor
    · by_cases h255 : n = 255
      · subst h255
        have hname : nameStr (mkId ((255 : ℕ) : Int) ((255 : ℕ) : Int)) =
            ⟨'s' :: natRepr 255⟩ := by
          unfold nameStr
          rw [mkId_host_id, mkId_switch_id, if_pos (by norm_num), intRepr_natCast]
        rw [hname, fromName_s]
        norm_num
      · have hname : nameStr (mkId (n : Int) (n : Int)) = ⟨'h' :: natRepr n⟩ := by
          unfold nameStr
          rw [mkId_host_id]
          rw [if_neg (fun hh => h255 (by exact_mod_cast hh)), intRepr_natCast]
        rw [hname, fromName_h]
    · have hname : nameStr (mkId (n : Int) 255) = ⟨'s' :: natRepr n⟩ := by
        unfold nameStr
        rw [mkId_host_id, mkId_switch_id, if_pos rfl, intRepr_natCast]
      rw [hname, fromName_s]
  · intro sw ho hsw hho
    have hd : ((mkId sw ho).dpid).toNat = sw * 256 + ho := by
      unfold mkId
      simp only []
      omega
    rw [hd]
    unfold fromDpid
    have e1 : ((sw * 256 + ho) &&& 0xff00) >>> 8 = sw := by
      rw [landff00_shift]
      rw [Nat.mul_comm sw 256, Nat.mul_add_div (by norm_num), Nat.div_eq_of_lt hho]
      omega
    have e2 : (sw * 256 + ho) &&& 0xff = ho := by
      rw [show (0xff : ℕ) = 255 from rfl, land255]
      omega
    rw [e1, e2]
    unfold mkId
    simp only [NodeID.mk.injEq, true_and]
    push_cast
    ring

theorem addHostsGo_switchSeq (hps : ℕ) :
    ∀ (l : List ℕ) (sn : ℕ) (hl : List NodeName) (acc : HostPlan),
      (addHostsGo hps l sn hl acc).switchSeq =
        acc.switchSeq ++ clusterIds hps sn l := by
  intro l
  induction l with
  | nil => intro sn hl acc; simp [addHostsGo, clusterIds]
  | cons num rest ih =>
    intro sn hl acc
    simp only [addHostsGo, clusterIds]
    by_cases h : num % hps = 0
    · rw [if_pos h, if_pos h, ih]
      simp
    · rw [if_neg h, if_neg h, ih]

theorem clusterIds_range' (hps : ℕ) :
    ∀ (l : List ℕ) (sn : ℕ),
      clusterIds hps sn l =
        List.range' sn (l.countP (fun num => num % hps == 0)) := by
  intro l
  induction l with
  | nil => intro sn; rfl
  | cons num rest ih =>
    intro sn
    rw [clusterIds]
    by_cases h : num % hps = 0
    · rw [if_pos h, ih, List.countP_cons, if_pos (by simpa using h),
        List.range'_succ]
    · rw [if_neg h, ih, List.countP_cons, if_neg (by simpa using h),
        Nat.add_zero]

theorem countP_mod_range (hps : ℕ) :
    ∀ n : ℕ, (List.range n).countP (fun num => num % hps == 0) =
      n / hps + (if hps ∣ n then 0 else 1) := by
  intro n
  induction n with
  | zero => simp
  | succ m ih =>
    rw [List.range_succ, List.countP_append, ih]
    simp only [List.countP_cons, List.countP_nil, Nat.zero_add]
    rw [Nat.succ_div]
    by_cases hd : hps ∣ m + 1 <;> by_cases hd2 : hps ∣ m <;>
      simp [hd, hd2, ← Nat.dvd_iff_mod_eq_zero]

/-- C10: confirmed.  When `hosts_per_switch` does not divide the host count
and the requested switch count exceeds `nodes / hosts_per_switch`, the filler
loop re-allocates the identifier `s<nodes / hosts_per_switch + 1>` already
emitted by the cluster loop: that switch index appears at least twice in the
`addSwitch` call sequence, so textual switch identifiers are not globally
unique.  (`1 ≤ hosts_per_switch` keeps the model inside Python semantics:
`hosts_per_switch = 0` raises `ZeroDivisionError`.) -/
theorem c10_duplicate_switch_identifier (switches nodes ports_per_switch hosts_per_switch : ℕ)
    (_h1 : 1 ≤ hosts_per_switch) (h2 : ¬ hosts_per_switch ∣ nodes)
    (h3 : nodes / hosts_per_switch < switches) :
    2 ≤ ((addHostsRun switches nodes ports_per_switch
      hosts_per_switch).switchSeq.count (nodes / hosts_per_switch + 1)) := by
  have hseq : (addHostsRun switches nodes ports_per_switch
      hosts_per_switch).switchSeq =
      List.range' 1 (nodes / hosts_per_switch + 1) ++
        (List.range' (nodes / hosts_per_switch)
          (switches - nodes / hosts_per_switch)).map (fun num => num + 1) := by
    show (addHostsGo hosts_per_switch (List.range nodes) 1 []
        ⟨[], [], []⟩).switchSeq ++ _ = _
    rw [addHostsGo_switchSeq, clusterIds_range', countP_mod_range,
      if_neg h2]
    simp
  rw [hseq, List.count_append]
  have m1 : nodes / hosts_per_switch + 1 ∈
      List.range' 1 (nodes / hosts_per_switch + 1) := by
    rw [List.mem_range']
    exact ⟨nodes / hosts_per_switch, by omega, by omega⟩
  have m2 : nodes / hosts_per_switch + 1 ∈
      (List.range' (nodes / hosts_per_switch)
        (switches - nodes / hosts_per_switch)).map (fun num => num + 1) := by
    refine List.mem_map.mpr ⟨nodes / hosts_per_switch, ?_, rfl⟩
    rw [List.mem_range']
    exact ⟨0, by omega, by omega⟩
  have g1 := List.one_le_count_iff.mpr m1
  have g2 := List.one_le_count_iff.mpr m2
  omega


/-- Witness for `c9_identifier_roundtrip`: the dpid round-trip at the
byte-sized identity `(3, 7)`. -/
theorem c9_identifier_roundtrip_witness :
    fromDpid ((mkId (3 : ℕ) (7 : ℕ)).dpid.toNat) = mkId (3 : ℕ) (7 : ℕ) :=
  c9_identifier_roundtrip.2 3 7 (by decide) (by decide)

/-- Witness for `c10_duplicate_switch_identifier`: `switches = 3`,
`nodes = 3`, `hosts_per_switch = 2` re-allocates `s2`. -/
theorem c10_duplicate_switch_identifier_witness :
    2 ≤ ((addHostsRun 3 3 4 2).switchSeq.count (3 / 2 + 1)) :=
  c10_duplicate_switch_identifier 3 3 4 2 (by decide) (by decide) (by decide)

end Jellyfish
